import Mathlib

/-!
Shallow embedding of the authentication/persistence core of the
Finnova personal-finance application (src/database/core.py,
src/modules/auth/traditional.py, src/modules/auth/face_auth.py).

Modelling conventions:

* Python strings are `String`, Python `None`-able values are `Option _`.
* Face embeddings (numpy float arrays) are `List ℚ`.  The library call
  `face_recognition.face_distance` computes the Euclidean norm of the
  difference vector; every use in the source only compares that norm to a
  non-negative tolerance, and `norm a-b ≤ t ↔ sqDist a b ≤ t*t`
  (`norm < t ↔ sqDist < t*t`) for `t ≥ 0`, so the embedding works with
  squared distances throughout and squares each tolerance at the
  comparison site.  This keeps every predicate decidable over ℚ.
* `sha256.hexdigest` is an opaque deterministic digest; it is passed in as
  an explicit function parameter `h : String → String`, and the salt read
  from the environment (`os.getenv("FINNOVA_PASSWORD_SALT", ...)`) is a
  parameter `salt : String`.
* The success/failure of each file-system primitive is supplied by an
  explicit oracle, making the exception-driven control flow of the source
  a pure function of that oracle.
-/

set_option maxRecDepth 100000

namespace Finnova

/-- One entry of `data["users"]` as built by `Database.register_user`
(src/database/core.py lines 180-192). -/
structure UserRecord where
  username : String
  password_hash : Option String
  face_encoding : Option (List ℚ)
  registration_date : String
  auth_methods : List String
deriving DecidableEq, Repr

/-- The in-memory state of `Database`: `self.data["users"]` together with
the two parallel lists of `self.face_data`. -/
structure DBState where
  users : List UserRecord
  faceEncodings : List (List ℚ)
  faceUsernames : List String
deriving DecidableEq, Repr

/-- Python truthiness of an optional string (`if password:`;
`None` and `""` are falsy). -/
def strTruthy : Option String → Bool
  | none => false
  | some s => s ≠ ""

/-- Python truthiness of an optional list (`user.get("face_encoding")`;
`None` and `[]` are falsy). -/
def listTruthy : Option (List ℚ) → Bool
  | none => false
  | some l => l ≠ []

/-- Squared Euclidean distance between two embeddings.
`face_recognition.face_distance` returns `np.linalg.norm(a - b)`; the
source only ever compares that value with a non-negative threshold, which
is equivalent to comparing this square with the squared threshold. -/
def sqDist (a b : List ℚ) : ℚ :=
  ((a.zipWith (fun x y => (x - y) * (x - y)) b)).sum

/-- `face_recognition.compare_faces(known, probe, tolerance)` =
`list(face_distance(known, probe) <= tolerance)`: one Boolean per known
encoding, true iff its distance to the probe is at most the tolerance
(the library comparison is non-strict `<=`). -/
def compare_faces (known : List (List ℚ)) (probe : List ℚ) (tol : ℚ) :
    List Bool :=
  known.map (fun e => sqDist e probe ≤ tol * tol)

namespace Database

/-- `Database._hash_password` (core.py lines 313-321): `None` on a falsy
password, otherwise the digest of password ++ pepper ++ salt. -/
def hash_password (h : String → String) (salt : String)
    (password : Option String) : Option String :=
  match password with
  | none => none
  | some p =>
    if p = "" then none
    else some (h (p ++ "finnova_secret_pepper" ++ salt))

/-- `Database.user_exists` (core.py lines 323-325). -/
def user_exists (users : List UserRecord) (username : String) : Bool :=
  users.any (fun u => u.username == username)

/-- `Database.get_user_auth_methods` (core.py lines 327-337). -/
def get_user_auth_methods (users : List UserRecord) (username : String) :
    List String :=
  match users.find? (fun u => u.username == username) with
  | none => []
  | some u =>
    (if strTruthy u.password_hash then ["password"] else []) ++
      (if listTruthy u.face_encoding then ["face"] else [])

/-- `Database.authenticate_password` (core.py lines 276-281).  The stored
hash is compared with `_hash_password(password)`; when the latter is
`None` the Python `==` against a string is `False`, matched here by
`Option` equality. -/
def authenticate_password (h : String → String) (salt : String)
    (users : List UserRecord) (username password : String) : Bool :=
  match users.find? (fun u => u.username == username) with
  | none => false
  | some u =>
    if ¬ strTruthy u.password_hash then false
    else u.password_hash = hash_password h salt (some password)

/-- `Database.authenticate_face` (core.py lines 283-311): builds the list
of `compare_faces` Booleans at tolerance 0.4, takes the index of the
FIRST `True` (`matches.index(True)`), reads the username at that index
and only returns it when `user_exists` holds; an out-of-range username
lookup (a Python `IndexError`) is modelled as a rejection. -/
def authenticate_face (st : DBState) (probe : List ℚ) : Option String :=
  if st.faceEncodings = [] then none
  else
    let ms := compare_faces st.faceEncodings probe (2/5)
    match ms.findIdx? (fun b => b) with
    | none => none
    | some idx =>
      match st.faceUsernames[idx]? with
      | none => none
      | some username =>
        if user_exists st.users username then some username else none

/-- `Database.register_user` (core.py lines 139-243).  `faceSaveOk` and
`dataSaveOk` are the outcomes of the `save_face_data` / `save_data`
calls.  The translation keeps the source's exact mutation order:
validation, append to `users`, append to both face lists, rollback of
`users` on a face-save failure (the face lists are NOT touched there),
rollback of the first face entry of this username on a data-save failure
(the user list is NOT touched there). -/
def register_user (h : String → String) (salt : String) (st : DBState)
    (username : String) (password : Option String)
    (face : Option (List ℚ)) (now : String)
    (faceSaveOk dataSaveOk : Bool) : DBState × Bool :=
  if username = "" then (st, false)
  else if user_exists st.users username then (st, false)
  else if (match face with
           | some f => decide (f.length ≠ 128)
           | none => false) then (st, false)
  else
    let password_hash := hash_password h salt password
    let methods :=
      (if strTruthy password then ["password"] else []) ++
        (if face.isSome then ["face"] else [])
    if methods = [] then (st, false)
    else
      let user_data : UserRecord :=
        ⟨username, password_hash, face, now, methods⟩
      let users1 := st.users ++ [user_data]
      match face with
      | some f =>
        let encs1 := st.faceEncodings ++ [f]
        let names1 := st.faceUsernames ++ [username]
        if ¬ faceSaveOk then
          -- inner `except`: only the user list is rolled back
          (⟨users1.filter (fun u => u.username ≠ username), encs1, names1⟩,
            false)
        else if ¬ dataSaveOk then
          -- `save_data` failed: pop the first face entry of this username
          let idx := names1.findIdx (fun n => n == username)
          (⟨users1, encs1.eraseIdx idx, names1.eraseIdx idx⟩, false)
        else (⟨users1, encs1, names1⟩, true)
      | none =>
        if ¬ dataSaveOk then
          (⟨users1, st.faceEncodings, st.faceUsernames⟩, false)
        else (⟨users1, st.faceEncodings, st.faceUsernames⟩, true)

/-- Modelled from the spec: `Database.update_user_password` is invoked by
`TraditionalAuthenticator.change_password` (traditional.py line 54) but is
absent from the source tree.  Per the spec (§3 UserRecord lifecycle,
"`password_hash` may be mutated later by a password-change operation",
and §4.2 digest-equality verification) it mutates exactly the stored
`password_hash` of the named user and reports success; since `Database`
stores every credential it receives as `_hash_password(credential)`
(register, line 182) and `authenticate_password` compares against
`_hash_password(credential)`, the modelled update stores the digest the
same way, keeping verification by digest equality working. -/
def update_user_password (h : String → String) (salt : String)
    (users : List UserRecord) (username : String) (credential : String) :
    List UserRecord × Bool :=
  if user_exists users username then
    (users.map (fun u =>
      if u.username = username then
        { u with password_hash := hash_password h salt (some credential) }
      else u), true)
  else (users, false)

end Database

/-- On-disk picture used by `Database.save_face_data`: the primary file
`assets/face_models/known_faces.dat` and its `.tmp` side-file, each either
absent or holding a pickled face-data blob. -/
structure FaceDisk where
  primary : Option (List (List ℚ) × List String)
  temp : Option (List (List ℚ) × List String)
deriving DecidableEq, Repr

/-- Which file-system primitives of one `save_face_data` call succeed. -/
structure SaveOracle where
  makedirsOk : Bool
  writeTempOk : Bool
  removePrimaryOk : Bool
  renameOk : Bool
deriving DecidableEq, Repr

/-- Result of a Python call as seen by its caller: a returned value, or an
exception that escaped the function. -/
inductive PyResult (α : Type) where
  | ok (a : α)
  | exn (msg : String)
deriving DecidableEq, Repr

namespace Database

/-- `Database.save_face_data` (core.py lines 119-137), step by step
against the oracle:
* `os.makedirs` raises → the `except` block evaluates
  `os.path.exists(temp_file)` but `temp_file` was never assigned, so an
  `UnboundLocalError` escapes to the caller;
* writing the temp file raises after `open` created it → the handler
  removes the partial temp file and returns `False`;
* `os.remove(FACE_DATA_FILE)` raises → handler removes the temp file,
  returns `False`, primary intact;
* `os.rename` raises → handler removes the temp file and returns `False`,
  but the primary file was already deleted, so the previous on-disk state
  is lost;
* all succeed → the temp file becomes the primary file, returns `True`.
The handler's own `os.remove(temp_file)` is modelled as succeeding. -/
def save_face_data (disk : FaceDisk)
    (data : List (List ℚ) × List String) (o : SaveOracle) :
    FaceDisk × PyResult Bool :=
  if ¬ o.makedirsOk then
    (disk, .exn "UnboundLocalError: temp_file referenced before assignment")
  else if ¬ o.writeTempOk then
    ({ disk with temp := none }, .ok false)
  else
    let d1 : FaceDisk := { disk with temp := some data }
    match disk.primary with
    | some _ =>
      if ¬ o.removePrimaryOk then
        ({ d1 with temp := none }, .ok false)
      else if ¬ o.renameOk then
        (⟨none, none⟩, .ok false)
      else (⟨some data, none⟩, .ok true)
    | none =>
      if ¬ o.renameOk then
        ({ d1 with temp := none }, .ok false)
      else (⟨some data, none⟩, .ok true)

end Database

namespace TraditionalAuthenticator

/-- `TraditionalAuthenticator._hash_password` (traditional.py lines
253-260): `None` on a falsy password, otherwise the digest of
salt ++ password ++ pepper (note the sandwich order, different from
`Database._hash_password`). -/
def hash_password (h : String → String) (password : String) :
    Option String :=
  if password = "" then none
  else some (h ("finnova_salt_" ++ password ++ "_secret_pepper"))

/-- `TraditionalAuthenticator.register_user` (traditional.py lines
12-27): validates, pre-hashes the password with its own scheme and hands
the digest to `Database.register_user` as the `password` argument (which
hashes it once more). -/
def register_user (h : String → String) (salt : String) (st : DBState)
    (username password : String) (now : String) (dataSaveOk : Bool) :
    DBState × Bool :=
  if username = "" ∨ password = "" then (st, false)
  else if Database.user_exists st.users username then (st, false)
  else
    Database.register_user h salt st username
      (hash_password h password) none now true dataSaveOk

/-- `TraditionalAuthenticator.authenticate` (traditional.py lines 29-41):
validates, pre-hashes the password and delegates to
`Database.authenticate_password` with the digest. -/
def authenticate (h : String → String) (salt : String)
    (users : List UserRecord) (username password : String) : Bool :=
  if username = "" ∨ password = "" then false
  else
    match hash_password h password with
    | none => false
    | some hp => Database.authenticate_password h salt users username hp

/-- `TraditionalAuthenticator.change_password` (traditional.py lines
43-57): verifies the old password unless it is empty (admin reset),
requires at least 8 characters, then stores the trad-hashed new password
through `Database.update_user_password`. -/
def change_password (h : String → String) (salt : String)
    (users : List UserRecord)
    (username old_password new_password : String) :
    List UserRecord × Bool :=
  if old_password ≠ "" ∧ ¬ authenticate h salt users username old_password
    then (users, false)
  else if new_password.length < 8 then (users, false)
  else
    match hash_password h new_password with
    | none => (users, false)  -- unreachable: length ≥ 8 forces nonempty
    | some hp => Database.update_user_password h salt users username hp

end TraditionalAuthenticator

namespace FaceAuthenticator

/-- `np.argmin`: index of the first occurrence of the minimum (0 on the
empty list, which `np.argmin` rejects; callers guard non-emptiness). -/
def argminIdx (l : List ℚ) : Nat :=
  match l.min? with
  | none => 0
  | some m => l.findIdx (fun x => x == m)

/-- The duplicate-face check of `FaceAuthenticator.register_user`
(face_auth.py lines 317-323): `any(compare_faces(known, probe,
tolerance=0.35))`. -/
def duplicate_face (known : List (List ℚ)) (probe : List ℚ) : Bool :=
  (compare_faces known probe (7/20)).any (fun b => b)

/-- One attempt of `FaceAuthenticator.authenticate` (face_auth.py lines
353-392) with a probe in hand: `compare_faces` at tolerance 0.4,
`best_match_index = np.argmin(face_distance(...))`, accept when
`matches[best]` and `face_distances[best] < 1 - confidence_threshold`
(default 0.6, hence strictly below 0.4), then re-check the resolved
username against the main database. -/
def authenticate (knownEncs : List (List ℚ)) (knownNames : List String)
    (users : List UserRecord) (probe : List ℚ) : Option String :=
  if knownEncs = [] then none
  else
    let ms := compare_faces knownEncs probe (2/5)
    let dists := knownEncs.map (fun e => sqDist e probe)
    let best := argminIdx dists
    if ms.getD best false ∧ dists.getD best 0 < (2/5) * (2/5) then
      match knownNames[best]? with
      | none => none
      | some username =>
        if Database.user_exists users username then some username
        else none
    else none

end FaceAuthenticator

/-- A JSON value as produced by `json.load`. -/
inductive Jv where
  | str (s : String)
  | num (n : ℚ)
  | boolean (b : Bool)
  | null
  | arr (l : List Jv)
  | obj (l : List (String × Jv))

/-- Python truthiness of a JSON value (`if c` in the set comprehension of
`load_data`). -/
def jvTruthy : Jv → Bool
  | .str s => s ≠ ""
  | .num n => n ≠ 0
  | .boolean b => b
  | .null => false
  | .arr l => ¬ l.isEmpty
  | .obj l => ¬ l.isEmpty

/-- Python `str(c)` applied to a JSON value inside `load_data`'s category
normalisation.  Category entries written by this program are strings, for
which `str` is the identity; the rendering of the remaining constructors
is a deterministic stand-in (no theorem below depends on it). -/
def jvStr : Jv → String
  | .str s => s
  | .num n => toString n
  | .boolean b => if b then "True" else "False"
  | .null => "None"
  | .arr _ => "[...]"
  | .obj _ => "\x7b...\x7d"

/-- Deterministic stand-in for Python's `list({...})` over strings: keep
the first occurrence of each element.  CPython's set iteration order is
implementation-defined (hash-randomised), so the theorems below only use
order-insensitive consequences (membership, duplicate-freedom) of this
definition. -/
def pySetList : List String → List String
  | [] => []
  | x :: xs => if x ∈ pySetList xs then pySetList xs else x :: pySetList xs

/-- A well-formed account document in the sense of the claim: all six
top-level keys present with their expected types (`income`, `expenses`,
`categories`, `goals`, `users` lists; `budget` a dict).  For such a
document the type-repair loop of `load_data` (core.py lines 39-50) is a
no-op, so only the category normalisation below remains. -/
structure Document where
  income : List Jv
  expenses : List Jv
  categories : List Jv
  budget : List (String × Jv)
  goals : List Jv
  users : List Jv

namespace Database

/-- The category normalisation of `Database.load_data` (core.py line 54):
`data["categories"] = list({str(c) for c in data["categories"] if c})` —
drop falsy entries, stringify, deduplicate via a set, store back as a
list of strings. -/
def normalize_categories (l : List Jv) : List Jv :=
  (pySetList ((l.filter jvTruthy).map jvStr)).map Jv.str

/-- `Database.save_data` (core.py lines 86-117) restricted to its data
content: `json.dump` writes the given document verbatim (key order and
list order preserved), so the on-disk document equals the in-memory one.
-/
def save_data_content (d : Document) : Document := d

/-- `Database.load_data` (core.py lines 21-56) on a well-formed on-disk
document: every required key is present with the right type, so the
repair loop leaves it unchanged and only the category normalisation of
line 54 applies. -/
def load_data (d : Document) : Document :=
  { d with categories := normalize_categories d.categories }

/-- One save-then-load round trip through the persistent store. -/
def round_trip (d : Document) : Document :=
  load_data (save_data_content d)

end Database

/-- Helper naming the digest `TraditionalAuthenticator._hash_password`
produces for a non-empty password. -/
def trad_digest (h : String → String) (p : String) : String :=
  h ("finnova_salt_" ++ p ++ "_secret_pepper")

/-- Helper naming the digest `Database` ends up storing for a password
that went through the traditional-auth layer: the database re-hashes the
traditional digest with its own pepper and salt. -/
def stored_digest (h : String → String) (salt p : String) : String :=
  h (trad_digest h p ++ "finnova_secret_pepper" ++ salt)

/-- A 128-dimensional all-zero embedding (a valid probe/template). -/
def zeros128 : List ℚ := List.replicate 128 0

/-- A 128-dimensional embedding at Euclidean distance `|q|` from
`zeros128`: `q` in the first coordinate, zero elsewhere. -/
def embedAt (q : ℚ) : List ℚ := q :: List.replicate 127 0

/-- A face-enrolled user record as `register_user` would create it. -/
def mkFaceUser (u : String) (e : List ℚ) : UserRecord :=
  ⟨u, none, some e, "2024-01-01", ["face"]⟩

/-- Concrete store for the nearest-neighbour counterexample: two enrolled
users, `"u0"` at squared distance 9/100 from the zero probe and `"u1"`
strictly nearer at squared distance 1/100, both within the 0.4
authentication tolerance. -/
def stC3 : DBState :=
  ⟨[mkFaceUser "u0" (embedAt (3/10)), mkFaceUser "u1" (embedAt (1/10))],
    [embedAt (3/10), embedAt (1/10)], ["u0", "u1"]⟩

/-- Concrete store for the boundary counterexample: one enrolled user at
distance exactly 0.4 from the zero probe. -/
def stC4 : DBState :=
  ⟨[mkFaceUser "u" (embedAt (2/5))], [embedAt (2/5)], ["u"]⟩

/-- The registration attempt of the rollback bug: fresh user `"dave"`
registering with a face only, the face-template save succeeds and the
account-document save fails. -/
def regC1 : DBState × Bool :=
  Database.register_user (fun s => s) "default_salt_value" ⟨[], [], []⟩
    "dave" none (some zeros128) "2024-01-01" true false

/-- Empty face-data disk (no primary file, no temp file). -/
def diskEmpty : FaceDisk := ⟨none, none⟩

/-- A previously saved face-data blob on disk. -/
def oldBlob : List (List ℚ) × List String := ([zeros128], ["old"])

/-- Concrete store with one registered user `"alice"`, used by the
duplicate-registration witness. -/
def stAlice : DBState :=
  ⟨[mkFaceUser "alice" zeros128], [zeros128], ["alice"]⟩

/-- A well-formed account document whose `categories` list holds the same
string twice; all other keys empty. -/
def docC2 : Document := ⟨[], [], [Jv.str "a", Jv.str "a"], [], [], []⟩

/-- Pointwise squared differences of two equal all-zero lists. -/
lemma zipWith_sq_replicate_zero (n : Nat) :
    List.zipWith (fun x y => (x - y) * (x - y)) (List.replicate n (0:ℚ))
      (List.replicate n 0) = List.replicate n 0 := by
  induction n with
  | zero => rfl
  | succ k ih => simp [List.replicate_succ, ih]

/-- The squared distance between `embedAt q` and the zero probe is
`q * q`. -/
lemma sqDist_embedAt (q : ℚ) : sqDist (embedAt q) zeros128 = q * q := by
  have h : zeros128 = 0 :: List.replicate 127 0 := rfl
  rw [sqDist, embedAt, h]
  simp [List.zipWith_cons_cons, zipWith_sq_replicate_zero, List.sum_replicate]

/-- C1: when the account-document save fails after the face-template save
succeeded, `register_user` returns failure and pops the face entries, but
leaves the freshly appended user record in `data["users"]`: afterwards
`user_exists("dave")` is true and `get_user_auth_methods("dave")` is
non-empty, so a half-created account stays visible — the full-rollback
claim fails on this path. -/
theorem register_data_save_failure_keeps_half_created_user :
    regC1.2 = false ∧
      Database.user_exists regC1.1.users "dave" = true ∧
      Database.get_user_auth_methods regC1.1.users "dave" = ["face"] ∧
      regC1.1.faceEncodings = [] ∧ regC1.1.faceUsernames = [] := by
  decide

/-- C6: two failure points of `save_face_data` violate the claim.  When
`os.makedirs` raises, the `except` handler reads the unassigned local
`temp_file` and an `UnboundLocalError` escapes to the caller instead of a
`False` return; and when `os.rename` fails after the primary file was
already removed, the previous on-disk state is lost rather than left
intact. -/
theorem save_face_data_failure_behaviour :
    Database.save_face_data diskEmpty ([], []) ⟨false, true, true, true⟩ =
      (diskEmpty,
        .exn "UnboundLocalError: temp_file referenced before assignment") ∧
      Database.save_face_data ⟨some oldBlob, none⟩ ([], [])
        ⟨true, true, true, false⟩ = (⟨none, none⟩, .ok false) := by
  decide

/-- C3 counterexample: with `"u0"` enrolled at squared distance 9/100 and
`"u1"` strictly nearer at 1/100 (both within tolerance), the username-less
`Database.authenticate_face` resolves the zero probe to `"u0"` — the
first entry within tolerance — not to the minimum-distance entry
`"u1"`. -/
theorem authenticate_face_not_nearest_neighbour :
    Database.authenticate_face stC3 zeros128 = some "u0" ∧
      sqDist (embedAt (1/10)) zeros128 < sqDist (embedAt (3/10)) zeros128 ∧
      sqDist (embedAt (1/10)) zeros128 ≤ (2/5) * (2/5) := by
  refine ⟨?_, ?_, ?_⟩
  · norm_num [Database.authenticate_face, compare_faces, stC3, mkFaceUser,
      Database.user_exists, sqDist_embedAt, List.findIdx?_cons]
    intro h
    exact absurd h (by simp)
  · rw [sqDist_embedAt, sqDist_embedAt]; norm_num
  · rw [sqDist_embedAt]; norm_num

/-- C4 counterexample: a probe at distance exactly the tolerance IS a
match.  At the 0.4 authentication tolerance `compare_faces` reports a
match and `authenticate_face` authenticates the user; at the 0.35
duplicate-check tolerance the duplicate test fires as well.  The decision
is non-strict `≤`, not strict `<`. -/
theorem tie_with_tolerance_is_a_match :
    sqDist (embedAt (2/5)) zeros128 = (2/5) * (2/5) ∧
      compare_faces [embedAt (2/5)] zeros128 (2/5) = [true] ∧
      Database.authenticate_face stC4 zeros128 = some "u" ∧
      sqDist (embedAt (7/20)) zeros128 = (7/20) * (7/20) ∧
      FaceAuthenticator.duplicate_face [embedAt (7/20)] zeros128 = true := by
  refine ⟨sqDist_embedAt _, ?_, ?_, sqDist_embedAt _, ?_⟩
  · norm_num [compare_faces, sqDist_embedAt]
  · norm_num [Database.authenticate_face, compare_faces, stC4, mkFaceUser,
      Database.user_exists, sqDist_embedAt, List.findIdx?_cons]
  · norm_num [FaceAuthenticator.duplicate_face, compare_faces, sqDist_embedAt]

/-- C2 counterexample: the save/load round trip is not the identity on
well-formed documents — a document whose `categories` list holds a
duplicate string comes back with the duplicate removed by the set-based
normalisation in `load_data`. -/
theorem round_trip_not_identity : Database.round_trip docC2 ≠ docC2 := by
  intro h
  have h1 : (Database.round_trip docC2).categories.length = 1 := rfl
  rw [h] at h1
  exact absurd h1 (by decide)

/-- C7: the username-less biometric flow never authenticates an orphaned
face template: whatever `Database.authenticate_face` returns, the
returned username satisfies `user_exists` against the main user set. -/
theorem authenticate_face_never_returns_orphan (st : DBState)
    (probe : List ℚ) :
    (Database.authenticate_face st probe).all
      (fun u => Database.user_exists st.users u) = true := by
  unfold Database.authenticate_face
  split
  · rfl
  · dsimp only
    split
    · rfl
    · split
      · rfl
      · split
        · next hex => simp [Option.all, hex]
        · rfl

/-- C8: every validation failure (empty username, duplicate username,
face embedding of length other than 128, no authentication method at
all) makes `register_user` reject with both stores returned exactly as
they were — no record is created and no persistence is attempted,
whatever the outcome of the (never-reached) save operations would have
been. -/
theorem register_rejects_invalid_without_side_effects
    (h : String → String) (salt : String) (st : DBState) (u : String)
    (p : Option String) (f : Option (List ℚ)) (now : String)
    (o1 o2 : Bool)
    (hbad : u = "" ∨ Database.user_exists st.users u = true ∨
      (∃ l, f = some l ∧ l.length ≠ 128) ∨
      (strTruthy p = false ∧ f = none)) :
    Database.register_user h salt st u p f now o1 o2 = (st, false) := by
  unfold Database.register_user
  rcases hbad with hu | hex | ⟨l, hf, hl⟩ | ⟨hp, hf⟩
  · simp [hu]
  · simp [hex]
  · subst hf
    split
    · rfl
    · split
      · rfl
      · simp [hl]
  · subst hf
    split
    · rfl
    · split
      · rfl
      · simp [hp]

/-- C8 witness: re-registering the already present `"alice"` is refused
and the store (including the first registration's record) is returned
unchanged. -/
theorem register_rejects_invalid_witness :
    Database.user_exists stAlice.users "alice" = true ∧
      Database.register_user (fun s => s) "default_salt_value" stAlice
        "alice" (some "pw") none "2024-01-02" true true =
        (stAlice, false) :=
  ⟨by decide,
    register_rejects_invalid_without_side_effects _ _ _ _ _ _ _ _ _
      (Or.inr (Or.inl (by decide)))⟩

/-- Membership is unchanged by the set-based deduplication. -/
lemma mem_pySetList (l : List String) :
    ∀ s : String, s ∈ pySetList l ↔ s ∈ l := by
  induction l with
  | nil => intro s; simp [pySetList]
  | cons x xs ih =>
    intro s
    by_cases hx : x ∈ pySetList xs
    · rw [pySetList, if_pos hx, ih, List.mem_cons]
      constructor
      · exact Or.inr
      · rintro (rfl | hs)
        · exact (ih s).mp hx
        · exact hs
    · rw [pySetList, if_neg hx, List.mem_cons, List.mem_cons, ih]

/-- The set-based deduplication returns a duplicate-free list. -/
lemma pySetList_nodup (l : List String) : (pySetList l).Nodup := by
  induction l with
  | nil => simp [pySetList]
  | cons x xs ih =>
    by_cases hx : x ∈ pySetList xs
    · rw [pySetList, if_pos hx]; exact ih
    · rw [pySetList, if_neg hx]; exact List.Nodup.cons hx ih

/-- C2 amended: one save/load round trip preserves `income`, `expenses`,
`budget`, `goals` and `users` exactly, but rewrites `categories` to a
duplicate-free list holding exactly the string forms of its truthy
entries (set semantics: duplicates are collapsed and the order is not
specified), so the round trip is not the identity in general. -/
theorem round_trip_preserves_all_but_categories (d : Document) :
    (Database.round_trip d).income = d.income ∧
      (Database.round_trip d).expenses = d.expenses ∧
      (Database.round_trip d).budget = d.budget ∧
      (Database.round_trip d).goals = d.goals ∧
      (Database.round_trip d).users = d.users ∧
      (Database.round_trip d).categories.Nodup ∧
      (∀ s : String, Jv.str s ∈ (Database.round_trip d).categories ↔
        s ∈ (d.categories.filter jvTruthy).map jvStr) := by
  have hinj : Function.Injective Jv.str := fun a b hab => by
    injection hab
  refine ⟨rfl, rfl, rfl, rfl, rfl, ?_, ?_⟩
  · exact (pySetList_nodup _).map hinj
  · intro s
    show Jv.str s ∈
        (pySetList ((d.categories.filter jvTruthy).map jvStr)).map Jv.str ↔ _
    rw [List.mem_map_of_injective hinj, mem_pySetList]

/-- A username that fails `user_exists` is not found by `find?`. -/
lemma find?_username_of_fresh (users : List UserRecord) (u : String)
    (hfresh : Database.user_exists users u = false) :
    users.find? (fun x => x.username == u) = none := by
  rw [List.find?_eq_none]
  intro x hx
  unfold Database.user_exists at hfresh
  rw [List.any_eq_false] at hfresh
  exact hfresh x hx

/-- The state produced by a successful password-only registration of a
fresh user. -/
lemma trad_register_fresh_user (h : String → String) (salt : String)
    (st : DBState) (u p now : String)
    (hu : u ≠ "") (hp : p ≠ "")
    (hfresh : Database.user_exists st.users u = false)
    (htd : trad_digest h p ≠ "") :
    TraditionalAuthenticator.register_user h salt st u p now true =
      (⟨st.users ++
          [⟨u, some (stored_digest h salt p), none, now, ["password"]⟩],
        st.faceEncodings, st.faceUsernames⟩, true) := by
  have htd' : h ("finnova_salt_" ++ p ++ "_secret_pepper") ≠ "" := htd
  unfold TraditionalAuthenticator.register_user Database.register_user
    TraditionalAuthenticator.hash_password Database.hash_password
  simp [hu, hp, hfresh, strTruthy, trad_digest, stored_digest, htd']

/-- C9: registering a fresh user through the traditional-auth layer with
a non-empty password succeeds, the resulting auth-method set is exactly
`password`, verification with the same password returns true, and
verification with a password whose stored digest differs returns false.
(The digests are abstracted over the SHA-256 function `h`; the
hypotheses record that the concrete digests involved are non-empty and
that the wrong password's digest differs, which holds for hex digests
short of a SHA-256 collision.) -/
theorem password_registration_scenario
    (h : String → String) (salt : String) (st : DBState)
    (u p wrong now : String)
    (hu : u ≠ "") (hp : p ≠ "")
    (hfresh : Database.user_exists st.users u = false)
    (htd : trad_digest h p ≠ "")
    (hsd : stored_digest h salt p ≠ "")
    (hdiff : stored_digest h salt wrong ≠ stored_digest h salt p) :
    (TraditionalAuthenticator.register_user h salt st u p now true).2 =
        true ∧
      Database.get_user_auth_methods
        (TraditionalAuthenticator.register_user h salt st u p now
          true).1.users u = ["password"] ∧
      TraditionalAuthenticator.authenticate h salt
        (TraditionalAuthenticator.register_user h salt st u p now
          true).1.users u p = true ∧
      TraditionalAuthenticator.authenticate h salt
        (TraditionalAuthenticator.register_user h salt st u p now
          true).1.users u wrong = false := by
  have htd' : h ("finnova_salt_" ++ p ++ "_secret_pepper") ≠ "" := htd
  have hsd' : h (h ("finnova_salt_" ++ p ++ "_secret_pepper") ++
      "finnova_secret_pepper" ++ salt) ≠ "" := hsd
  rw [trad_register_fresh_user h salt st u p now hu hp hfresh htd]
  refine ⟨rfl, ?_, ?_, ?_⟩
  · unfold Database.get_user_auth_methods
    rw [List.find?_append, find?_username_of_fresh st.users u hfresh]
    simp [strTruthy, listTruthy, stored_digest, trad_digest, hsd']
  · unfold TraditionalAuthenticator.authenticate
      TraditionalAuthenticator.hash_password
      Database.authenticate_password Database.hash_password
    rw [if_neg (by simp [hu, hp]), if_neg hp]
    rw [List.find?_append, find?_username_of_fresh st.users u hfresh]
    simp [strTruthy, stored_digest, trad_digest, htd', hsd']
  · by_cases hw : wrong = ""
    · simp [TraditionalAuthenticator.authenticate, hw]
    · unfold TraditionalAuthenticator.authenticate
        TraditionalAuthenticator.hash_password
        Database.authenticate_password Database.hash_password
      rw [if_neg (by simp [hu, hw]), if_neg hw]
      rw [List.find?_append, find?_username_of_fresh st.users u hfresh]
      by_cases htw : h ("finnova_salt_" ++ wrong ++ "_secret_pepper") = ""
      · simp [strTruthy, trad_digest, stored_digest, hsd', htw]
      · have hdiff' : h (h ("finnova_salt_" ++ wrong ++ "_secret_pepper") ++
            "finnova_secret_pepper" ++ salt) ≠
            h (h ("finnova_salt_" ++ p ++ "_secret_pepper") ++
              "finnova_secret_pepper" ++ salt) := hdiff
        simp [strTruthy, trad_digest, stored_digest, hsd', htw, hdiff']
        exact fun hh => hdiff' hh.symm

/-- C9 witness: the end-to-end scenario at a concrete store and concrete
digest function. -/
theorem password_registration_scenario_witness :
    Database.user_exists (⟨[], [], []⟩ : DBState).users "alice" = false ∧
      (TraditionalAuthenticator.register_user (fun s => s)
          "default_salt_value" ⟨[], [], []⟩ "alice" "longpassword1" "t"
          true).2 = true ∧
      Database.get_user_auth_methods
        (TraditionalAuthenticator.register_user (fun s => s)
          "default_salt_value" ⟨[], [], []⟩ "alice" "longpassword1" "t"
          true).1.users "alice" = ["password"] ∧
      TraditionalAuthenticator.authenticate (fun s => s)
        "default_salt_value"
        (TraditionalAuthenticator.register_user (fun s => s)
          "default_salt_value" ⟨[], [], []⟩ "alice" "longpassword1" "t"
          true).1.users "alice" "longpassword1" = true ∧
      TraditionalAuthenticator.authenticate (fun s => s)
        "default_salt_value"
        (TraditionalAuthenticator.register_user (fun s => s)
          "default_salt_value" ⟨[], [], []⟩ "alice" "longpassword1" "t"
          true).1.users "alice" "wrong" = false :=
  ⟨by decide,
    password_registration_scenario (fun s => s) "default_salt_value"
      ⟨[], [], []⟩ "alice" "longpassword1" "wrong" "t"
      (by decide) (by decide) (by decide) (by decide) (by decide)
      (by decide)⟩

/-- The result of a successful admin-reset password change: every record
is mapped, only the target's `password_hash` is replaced. -/
lemma change_password_eq_map (h : String → String) (salt : String)
    (users : List UserRecord) (u newp : String)
    (hex : Database.user_exists users u = true)
    (hlen : 8 ≤ newp.length)
    (htd : trad_digest h newp ≠ "") :
    TraditionalAuthenticator.change_password h salt users u "" newp =
      (users.map (fun r =>
        if r.username = u then
          { r with password_hash := some (stored_digest h salt newp) }
        else r), true) := by
  have hnp : newp ≠ "" := by
    intro hh
    rw [hh] at hlen
    simp at hlen
  have htd' : h ("finnova_salt_" ++ newp ++ "_secret_pepper") ≠ "" := htd
  have hlt : ¬ newp.length < 8 := by omega
  unfold TraditionalAuthenticator.change_password
    TraditionalAuthenticator.hash_password Database.update_user_password
    Database.hash_password
  simp [hnp, hlt, hex, trad_digest, stored_digest, htd']

/-- C5: for an existing user, the password-change operation (admin-reset
path: empty old password) succeeds, verification with the new password
then returns true, and the user set is transformed pointwise: every
record keeps its position, username, face encoding, registration date
and auth-method list; records of other users are kept identical; the
target's `password_hash` becomes the digest of the new password. -/
theorem change_password_updates_only_target
    (h : String → String) (salt : String) (users : List UserRecord)
    (u newp : String)
    (hu : u ≠ "")
    (hex : Database.user_exists users u = true)
    (hlen : 8 ≤ newp.length)
    (htd : trad_digest h newp ≠ "")
    (hsd : stored_digest h salt newp ≠ "") :
    (TraditionalAuthenticator.change_password h salt users u "" newp).2 =
        true ∧
      TraditionalAuthenticator.authenticate h salt
        (TraditionalAuthenticator.change_password h salt users u ""
          newp).1 u newp = true ∧
      List.Forall₂ (fun r r' : UserRecord =>
          r'.username = r.username ∧
          r'.face_encoding = r.face_encoding ∧
          r'.registration_date = r.registration_date ∧
          r'.auth_methods = r.auth_methods ∧
          (r.username ≠ u → r' = r) ∧
          (r.username = u →
            r'.password_hash = some (stored_digest h salt newp)))
        users
        (TraditionalAuthenticator.change_password h salt users u ""
          newp).1 := by
  have hnp : newp ≠ "" := by
    intro hh
    rw [hh] at hlen
    simp at hlen
  have htd' : h ("finnova_salt_" ++ newp ++ "_secret_pepper") ≠ "" := htd
  have hsd' : h (h ("finnova_salt_" ++ newp ++ "_secret_pepper") ++
      "finnova_secret_pepper" ++ salt) ≠ "" := hsd
  rw [change_password_eq_map h salt users u newp hex hlen htd]
  have hpred : ((fun x : UserRecord => x.username == u) ∘ (fun r =>
      if r.username = u then
        { r with password_hash := some (stored_digest h salt newp) }
      else r)) = (fun x : UserRecord => x.username == u) := by
    funext r
    by_cases hru : r.username = u <;> simp [hru]
  refine ⟨rfl, ?_, ?_⟩
  · obtain ⟨r0, hr0⟩ := Option.isSome_iff_exists.mp
      (List.find?_isSome.mpr (by
        unfold Database.user_exists at hex
        rw [List.any_eq_true] at hex
        exact hex))
    have hr0u : r0.username = u := by
      have := List.find?_some hr0
      simpa using this
    unfold TraditionalAuthenticator.authenticate
      TraditionalAuthenticator.hash_password
      Database.authenticate_password Database.hash_password
    rw [if_neg (by simp [hu, hnp]), if_neg hnp]
    rw [List.find?_map, hpred, hr0]
    simp [hr0u, strTruthy, trad_digest, stored_digest, htd', hsd']
  · rw [List.forall₂_map_right_iff]
    rw [List.forall₂_same]
    intro r _
    by_cases hru : r.username = u <;> simp [hru]

/-- C5 witness: resetting `"alice"`'s password to `"newpassword"` at a
concrete store and digest function. -/
theorem change_password_updates_only_target_witness :
    Database.user_exists stAlice.users "alice" = true ∧
      (TraditionalAuthenticator.change_password (fun s => s)
          "default_salt_value" stAlice.users "alice" "" "newpassword").2 =
        true ∧
      TraditionalAuthenticator.authenticate (fun s => s)
        "default_salt_value"
        (TraditionalAuthenticator.change_password (fun s => s)
          "default_salt_value" stAlice.users "alice" ""
          "newpassword").1 "alice" "newpassword" = true :=
  ⟨by decide,
    (change_password_updates_only_target (fun s => s)
      "default_salt_value" stAlice.users "alice" "newpassword"
      (by decide) (by decide) (by decide) (by decide) (by decide)).1,
    (change_password_updates_only_target (fun s => s)
      "default_salt_value" stAlice.users "alice" "newpassword"
      (by decide) (by decide) (by decide) (by decide) (by decide)).2.1⟩

/-- Removing the same index from two lists of equal length commutes with
zipping them. -/
lemma zip_eraseIdx (l1 : List α) (l2 : List β) (i : Nat)
    (hl : l1.length = l2.length) :
    (l1.eraseIdx i).zip (l2.eraseIdx i) = (l1.zip l2).eraseIdx i := by
  induction l1 generalizing l2 i with
  | nil =>
    cases l2 with
    | nil => simp
    | cons b bs => simp at hl
  | cons a as ih =>
    cases l2 with
    | nil => simp at hl
    | cons b bs =>
      cases i with
      | zero => rfl
      | succ j =>
        show (a :: as.eraseIdx j).zip (b :: bs.eraseIdx j) =
          ((a, b) :: as.zip bs).eraseIdx (j + 1)
        rw [List.zip_cons_cons, ih bs j (by simpa using hl)]
        rfl

/-- A password-only registration never touches the face lists, whatever
path it takes. -/
lemma register_none_face_lists (h : String → String) (salt : String)
    (st : DBState) (u : String) (p : Option String) (now : String)
    (o1 o2 : Bool) :
    (Database.register_user h salt st u p none now o1
        o2).1.faceEncodings = st.faceEncodings ∧
      (Database.register_user h salt st u p none now o1
        o2).1.faceUsernames = st.faceUsernames := by
  unfold Database.register_user
  dsimp only
  refine ⟨?_, ?_⟩ <;> (repeat' split) <;> rfl

/-- Case analysis of `register_user` as seen by the face store: the face
lists either come back untouched, or with the new pair appended to both,
or with the new pair appended and then the same index removed from
both. -/
lemma register_face_store_cases (h : String → String) (salt : String)
    (st : DBState) (u : String) (p : Option String)
    (f : Option (List ℚ)) (now : String) (o1 o2 : Bool) :
    (∃ us b, Database.register_user h salt st u p f now o1 o2 =
        (⟨us, st.faceEncodings, st.faceUsernames⟩, b)) ∨
      (∃ us e b, f = some e ∧
        Database.register_user h salt st u p f now o1 o2 =
          (⟨us, st.faceEncodings ++ [e], st.faceUsernames ++ [u]⟩, b)) ∨
      (∃ us e, f = some e ∧
        Database.register_user h salt st u p f now o1 o2 =
          (⟨us,
            (st.faceEncodings ++ [e]).eraseIdx
              ((st.faceUsernames ++ [u]).findIdx (fun n => n == u)),
            (st.faceUsernames ++ [u]).eraseIdx
              ((st.faceUsernames ++ [u]).findIdx (fun n => n == u))⟩,
            false)) := by
  cases f with
  | none =>
    refine Or.inl ⟨(Database.register_user h salt st u p none now o1
        o2).1.users,
      (Database.register_user h salt st u p none now o1 o2).2, ?_⟩
    rw [← (register_none_face_lists h salt st u p now o1 o2).1,
      ← (register_none_face_lists h salt st u p now o1 o2).2]
  | some e =>
    unfold Database.register_user
    by_cases h1 : u = ""
    · rw [if_pos h1]
      exact Or.inl ⟨_, _, rfl⟩
    · rw [if_neg h1]
      by_cases h2 : Database.user_exists st.users u = true
      · rw [if_pos h2]
        exact Or.inl ⟨_, _, rfl⟩
      · rw [if_neg h2]
        dsimp only
        by_cases h3 : e.length ≠ 128
        · rw [if_pos (by simpa using h3)]
          exact Or.inl ⟨_, _, rfl⟩
        · rw [if_neg (by simpa using h3)]
          rw [if_neg (by
            cases hsp : strTruthy p <;> simp [hsp])]
          cases o1 with
          | false =>
            rw [if_pos (by simp)]
            exact Or.inr (Or.inl ⟨_, e, false, rfl, rfl⟩)
          | true =>
            rw [if_neg (by simp)]
            cases o2 with
            | false =>
              rw [if_pos (by simp)]
              exact Or.inr (Or.inr ⟨_, e, rfl, rfl⟩)
            | true =>
              rw [if_neg (by simp)]
              exact Or.inr (Or.inl ⟨_, e, true, rfl, rfl⟩)

/-- C10: `register_user` preserves the parallel-array shape of the face
store.  Starting from equal-length `encodings`/`usernames`, every path —
rejection, password-only registration, successful face enrollment, the
rollback after a face-template save failure, and the rollback after an
account-document save failure — ends with equal-length lists, and the
positional pairing evolves only by appending the new `(embedding,
username)` pair at the end and/or removing one index from both sequences
at once. -/
theorem register_preserves_parallel_face_store
    (h : String → String) (salt : String) (st : DBState) (u : String)
    (p : Option String) (f : Option (List ℚ)) (now : String)
    (o1 o2 : Bool)
    (hlen : st.faceEncodings.length = st.faceUsernames.length) :
    ((Database.register_user h salt st u p f now o1 o2).1.faceEncodings.length
        = (Database.register_user h salt st u p f now
            o1 o2).1.faceUsernames.length) ∧
      ((Database.register_user h salt st u p f now o1 o2).1.faceEncodings.zip
            (Database.register_user h salt st u p f now
              o1 o2).1.faceUsernames =
          st.faceEncodings.zip st.faceUsernames ∨
        (∃ e, f = some e ∧
          (Database.register_user h salt st u p f now
              o1 o2).1.faceEncodings.zip
            (Database.register_user h salt st u p f now
              o1 o2).1.faceUsernames =
            st.faceEncodings.zip st.faceUsernames ++ [(e, u)]) ∨
        (∃ e i, f = some e ∧
          (Database.register_user h salt st u p f now
              o1 o2).1.faceEncodings.zip
            (Database.register_user h salt st u p f now
              o1 o2).1.faceUsernames =
            (st.faceEncodings.zip st.faceUsernames ++
              [(e, u)]).eraseIdx i)) := by
  rcases register_face_store_cases h salt st u p f now o1 o2 with
    ⟨us, b, hh⟩ | ⟨us, e, b, hf, hh⟩ | ⟨us, e, hf, hh⟩
  · rw [hh]
    exact ⟨hlen, Or.inl rfl⟩
  · rw [hh]
    refine ⟨by simp [hlen], Or.inr (Or.inl ⟨e, hf, ?_⟩)⟩
    exact List.zip_append hlen
  · rw [hh]
    refine ⟨?_, Or.inr (Or.inr ⟨e,
      (st.faceUsernames ++ [u]).findIdx (fun n => n == u), hf, ?_⟩)⟩
    · simp [List.length_eraseIdx, hlen]
    · rw [zip_eraseIdx _ _ _ (by simp [hlen]),
        List.zip_append hlen]
      rfl

/-- C10 witness: a concrete successful face enrollment starting from the
empty store appends one pair to both sequences. -/
theorem register_preserves_parallel_face_store_witness :
    ((List.length ([] : List (List ℚ))) = (List.length ([] : List String))) ∧
      ((Database.register_user (fun s => s) "default_salt_value"
          ⟨[], [], []⟩ "bob" none (some zeros128) "t" true
          true).1.faceEncodings.length =
        (Database.register_user (fun s => s) "default_salt_value"
          ⟨[], [], []⟩ "bob" none (some zeros128) "t" true
          true).1.faceUsernames.length) :=
  ⟨rfl,
    (register_preserves_parallel_face_store (fun s => s)
      "default_salt_value" ⟨[], [], []⟩ "bob" none (some zeros128) "t"
      true true rfl).1⟩

/-- `np.argmin` of a non-empty list is a valid index. -/
lemma argminIdx_lt_length (l : List ℚ) (hl : l ≠ []) :
    FaceAuthenticator.argminIdx l < l.length := by
  unfold FaceAuthenticator.argminIdx
  split
  · next heq => rw [List.min?_eq_none_iff] at heq; exact absurd heq hl
  · next m heq =>
    have hmem : m ∈ l := List.min?_mem (fun a b => min_choice a b) heq
    exact List.findIdx_lt_length_of_exists ⟨m, hmem, by simp⟩

/-- The value at `np.argmin` is a lower bound of every entry. -/
lemma argminIdx_le (l : List ℚ) (hl : l ≠ []) (j : Nat)
    (hj : j < l.length) :
    l.getD (FaceAuthenticator.argminIdx l) 0 ≤ l.getD j 0 := by
  unfold FaceAuthenticator.argminIdx
  split
  · next heq => rw [List.min?_eq_none_iff] at heq; exact absurd heq hl
  · next m heq =>
    have hmem : m ∈ l := List.min?_mem (fun a b => min_choice a b) heq
    have hlt : l.findIdx (fun x => x == m) < l.length :=
      List.findIdx_lt_length_of_exists ⟨m, hmem, by simp⟩
    have hval : l.getD (l.findIdx (fun x => x == m)) 0 = m := by
      have h1 := @List.findIdx_getElem _ (fun x => x == m) l hlt
      rw [List.getD_eq_getElem l 0 hlt]
      simpa [List.get_eq_getElem] using h1
    rw [hval, List.getD_eq_getElem l 0 hj]
    exact (List.le_min?_iff (fun a b c => le_min_iff) heq).mp
      (le_refl m) _ (List.getElem_mem hj)

/-- C3 amended: of the two biometric search implementations, only
`FaceAuthenticator.authenticate` is a nearest-neighbour search: when it
authenticates, the resolved username sits at `np.argmin` of the distance
list, that minimal distance is the one tested against the 0.4 threshold,
and it is a lower bound of every enrolled distance.
`Database.authenticate_face` instead resolves the FIRST enrolled entry
within tolerance (`matches.index(True)`): when it authenticates, the
resolved username sits at an index within tolerance all of whose
predecessors are out of tolerance — not necessarily at the minimum. -/
theorem nearest_neighbour_amended :
    (∀ (encs : List (List ℚ)) (names : List String)
        (users : List UserRecord) (p : List ℚ) (u : String),
      FaceAuthenticator.authenticate encs names users p = some u →
        names[FaceAuthenticator.argminIdx
            (encs.map (fun e => sqDist e p))]? = some u ∧
          (encs.map (fun e => sqDist e p)).getD
            (FaceAuthenticator.argminIdx
              (encs.map (fun e => sqDist e p))) 0 < (2/5) * (2/5) ∧
          ∀ j < encs.length,
            (encs.map (fun e => sqDist e p)).getD
              (FaceAuthenticator.argminIdx
                (encs.map (fun e => sqDist e p))) 0 ≤
              (encs.map (fun e => sqDist e p)).getD j 0) ∧
      (∀ (st : DBState) (p : List ℚ) (u : String),
        Database.authenticate_face st p = some u →
          ∃ i, i < st.faceEncodings.length ∧
            st.faceUsernames[i]? = some u ∧
            (∀ e, st.faceEncodings[i]? = some e →
              sqDist e p ≤ (2/5) * (2/5)) ∧
            (∀ j e', j < i → st.faceEncodings[j]? = some e' →
              ¬ (sqDist e' p ≤ (2/5) * (2/5)))) := by
  constructor
  · intro encs names users p u ha
    unfold FaceAuthenticator.authenticate at ha
    by_cases hemp : encs = []
    · rw [if_pos hemp] at ha
      cases ha
    · rw [if_neg hemp] at ha
      dsimp only at ha
      split at ha
      · next hcond =>
        cases hnm : names[FaceAuthenticator.argminIdx
            (encs.map (fun e => sqDist e p))]? with
        | none => rw [hnm] at ha; cases ha
        | some un =>
          rw [hnm] at ha
          dsimp only at ha
          have hmapne : encs.map (fun e => sqDist e p) ≠ [] := by
            simpa using hemp
          by_cases hex : Database.user_exists users un = true
          · rw [if_pos hex] at ha
            cases ha
            refine ⟨rfl, ?_, ?_⟩
            · exact hcond.2
            · intro j hj
              exact argminIdx_le _ hmapne j (by simpa using hj)
          · rw [if_neg hex] at ha
            cases ha
      · cases ha
  · intro st p u ha
    unfold Database.authenticate_face at ha
    by_cases hemp : st.faceEncodings = []
    · rw [if_pos hemp] at ha
      cases ha
    · rw [if_neg hemp] at ha
      dsimp only at ha
      cases hidx : (compare_faces st.faceEncodings p (2/5)).findIdx?
          (fun b => b) with
      | none =>
        rw [hidx] at ha
        dsimp only at ha
        cases ha
      | some i =>
        rw [hidx] at ha
        dsimp only at ha
        cases hun : st.faceUsernames[i]? with
        | none =>
          rw [hun] at ha
          dsimp only at ha
          cases ha
        | some un =>
          rw [hun] at ha
          dsimp only at ha
          by_cases hex : Database.user_exists st.users un = true
          · rw [if_pos hex] at ha
            cases ha
            obtain ⟨hlt, hp, hprev⟩ :=
              List.findIdx?_eq_some_iff_getElem.mp hidx
            have hlen : (compare_faces st.faceEncodings p (2/5)).length =
                st.faceEncodings.length := by
              simp [compare_faces]
            refine ⟨i, by rw [← hlen]; exact hlt, hun, ?_, ?_⟩
            · intro e he
              have hi' : i < st.faceEncodings.length := by
                rw [← hlen]; exact hlt
              have he' : st.faceEncodings[i] = e := by
                rw [List.getElem?_eq_getElem hi'] at he
                exact Option.some.inj he
              have := hp
              rw [show (compare_faces st.faceEncodings p (2/5))[i] =
                  decide (sqDist st.faceEncodings[i] p ≤ (2/5) * (2/5))
                from by simp [compare_faces]] at this
              rw [← he']
              exact of_decide_eq_true this
            · intro j e' hji hje
              have hj' : j < st.faceEncodings.length := by
                have : j < i := hji
                have hi' : i < st.faceEncodings.length := by
                  rw [← hlen]; exact hlt
                omega
              have hje' : st.faceEncodings[j] = e' := by
                rw [List.getElem?_eq_getElem hj'] at hje
                exact Option.some.inj hje
              have hnp := hprev j hji
              simp only [compare_faces, List.getElem_map] at hnp
              rw [← hje']
              simpa using hnp
          · rw [if_neg hex] at ha
            cases ha

/-- C3 amended witness: on the two-entry store of the counterexample the
argmin-based search resolves the nearer `"u1"` while the first-match
search resolves `"u0"`, each satisfying its characterisation. -/
theorem nearest_neighbour_amended_witness :
    FaceAuthenticator.authenticate [embedAt (3/10), embedAt (1/10)]
        ["u0", "u1"] stC3.users zeros128 = some "u1" ∧
      Database.authenticate_face stC3 zeros128 = some "u0" ∧
      ["u0", "u1"][FaceAuthenticator.argminIdx
          ([embedAt (3/10), embedAt (1/10)].map
            (fun e => sqDist e zeros128))]? = some "u1" ∧
      (∃ i, i < stC3.faceEncodings.length ∧
        stC3.faceUsernames[i]? = some "u0" ∧
        (∀ e, stC3.faceEncodings[i]? = some e →
          sqDist e zeros128 ≤ (2/5) * (2/5)) ∧
        (∀ j e', j < i → stC3.faceEncodings[j]? = some e' →
          ¬ (sqDist e' zeros128 ≤ (2/5) * (2/5)))) := by
  have h1 : FaceAuthenticator.authenticate
      [embedAt (3/10), embedAt (1/10)] ["u0", "u1"] stC3.users zeros128 =
      some "u1" := by
    have hb : ((9 : ℚ)/100 == 1/100) = false := by
      rw [beq_eq_false_iff_ne]
      norm_num
    norm_num [FaceAuthenticator.authenticate, FaceAuthenticator.argminIdx,
      compare_faces, stC3, mkFaceUser, Database.user_exists,
      sqDist_embedAt, List.min?, List.findIdx, List.findIdx.go, hb]
    intro hx
    exact absurd hx (by simp)
  have h2 : Database.authenticate_face stC3 zeros128 = some "u0" := by
    norm_num [Database.authenticate_face, compare_faces, stC3, mkFaceUser,
      Database.user_exists, sqDist_embedAt, List.findIdx?_cons]
    intro h
    exact absurd h (by simp)
  exact ⟨h1, h2,
    (nearest_neighbour_amended.1 _ _ _ _ _ h1).1,
    nearest_neighbour_amended.2 _ _ _ h2⟩

/-- C4 amended: both match decisions are non-strict.  On a single-entry
store, `Database.authenticate_face` authenticates exactly when the
squared distance is `≤` the squared 0.4 tolerance, and the duplicate
check of `FaceAuthenticator.register_user` fires exactly when the
squared distance is `≤` the squared 0.35 tolerance — so a probe at
distance exactly equal to either tolerance IS accepted as a match. -/
theorem match_decision_is_non_strict (r : UserRecord) (e p : List ℚ) :
    (Database.authenticate_face ⟨[r], [e], [r.username]⟩ p).isSome =
        decide (sqDist e p ≤ (2/5) * (2/5)) ∧
      FaceAuthenticator.duplicate_face [e] p =
        decide (sqDist e p ≤ (7/20) * (7/20)) := by
  constructor
  · unfold Database.authenticate_face
    by_cases hd : sqDist e p ≤ (2/5) * (2/5)
    · simp [compare_faces, hd, Database.user_exists, List.findIdx?_cons]
    · simp [compare_faces, hd, List.findIdx?_cons]
  · unfold FaceAuthenticator.duplicate_face
    by_cases hd : sqDist e p ≤ (7/20) * (7/20) <;>
      simp [compare_faces, hd]

end Finnova
